import Mathlib

/-!
Verification of the observation-building pipeline of `src/training/obs.py`
(classes `NectoObsOLD` and `NectoObsBuilder`).

Conventions of the shallow embedding:
* numpy float64 values are modelled as rationals (`ℚ`); all properties checked
  here are structural / exact-value properties, not rounding properties;
* numpy arrays are modelled either as `List (List ℚ)` (when bounds behaviour
  matters) or as total index functions `ℕ → ... → ℚ` (the value view of an
  array that mirrors the sequence of numpy assignments, later assignment
  winning on overlap);
* `_update_timers` is compiled by numba with bounds checking disabled, so an
  out-of-range read does not raise: it yields an unspecified value.  The
  function is therefore embedded twice, once with strict index checking
  (`updateTimersChecked`, every read through `Option`, mirroring plain
  numpy/Python semantics where an out-of-range index is an error) and once
  totally, parameterised by an arbitrary function `oob` giving the value of
  each out-of-range read (`timerRecT`, mirroring the njit build);
* the trigonometric functions and the square root used by
  `add_relative_components` are taken as parameters (`cosF`, `sinF`, `atanF`,
  `sqrtF`); every theorem about that code holds for all values of these
  parameters.
-/

namespace Necto

/-- Read entry `(i, j)` of a matrix given as a list of rows, defaulting to 0
out of range (used only where the source read is in range). -/
def at2 (m : List (List ℚ)) (i j : ℕ) : ℚ :=
  ((m.get? i).getD []).getD j 0

/-! ## Timer Simulator, strict-index embedding (`NectoObsBuilder._update_timers`)

The source builds a `(T+1) × E` matrix whose row 0 is the carried-in timer
row, then for `i = 1 .. T` and each entity `b`:
if the binary state `states[i, b]` triggers a reset the timer is set to the
reset constant, otherwise if the previous row's timer is positive it is
decremented by `tick_skip / 120` and floored at 0, otherwise it stays 0.
Rows `1 ..` are returned.  Note the source indexes `states[i, b]` (not
`states[i - 1, b]`): row `T` of a `T`-row state array is read. -/

/-- Timer value at internal row `i` (row 0 = carried state), entity `b`,
with every array read checked: `none` means the source would read out of
range.  `resetP` is the reset test on the binary state, `resetVal b` the
reset constant for entity `b` (itself a checked read for pads). -/
def timerCellChecked (resetP : ℚ → Bool) (resetVal : ℕ → Option ℚ) (dec : ℚ)
    (stateRows : List (List ℚ)) (carry : List ℚ) : ℕ → ℕ → Option ℚ
  | 0, b => carry.get? b
  | i + 1, b =>
    ((stateRows.get? (i + 1)).bind fun row => row.get? b).bind fun s =>
      if resetP s then resetVal b
      else (timerCellChecked resetP resetVal dec stateRows carry i b).map fun p =>
        if 0 < p then max 0 (p - dec) else 0

/-- All-or-nothing map: `some` of the list of results when every element
succeeds, `none` as soon as one fails (the shape numpy gives a loop whose
body may raise). -/
def optMap {α β : Type} (f : α → Option β) : List α → Option (List β)
  | [] => some []
  | a :: l => (f a).bind fun b => (optMap f l).map fun bs => b :: bs

/-- The returned `T × E` timer matrix (rows `1 .. T` of the internal array),
`none` if any read is out of range.  `E` is the column count of the state
array (numpy `shape[1]`, here the length of the first row). -/
def timerMatChecked (resetP : ℚ → Bool) (resetVal : ℕ → Option ℚ) (dec : ℚ)
    (stateRows : List (List ℚ)) (carry : List ℚ) : Option (List (List ℚ)) :=
  optMap (fun t =>
      optMap (fun b => timerCellChecked resetP resetVal dec stateRows carry (t + 1) b)
        (List.range stateRows.headI.length))
    (List.range stateRows.length)

/-- `NectoObsBuilder._update_timers` under strict index semantics.
Pads reset when their state is 0, to 10 if the pad location's z exceeds 72
else 4; players reset when their state is 1, to 3; both decrement by
`tick_skip / 120`. -/
def updateTimersChecked (carryBoost carryDemo : List ℚ) (locs : List (List ℚ))
    (tickSkip : ℚ) (boostStates demoStates : List (List ℚ)) :
    Option (List (List ℚ) × List (List ℚ)) :=
  (timerMatChecked (fun s => s == 0)
      (fun b => ((locs.get? b).bind fun r => r.get? 2).map fun z =>
        if 72 < z then (10 : ℚ) else 4)
      (tickSkip / 120) boostStates carryBoost).bind fun bt =>
  (timerMatChecked (fun s => s == 1) (fun _ => some 3)
      (tickSkip / 120) demoStates carryDemo).map fun dt => (bt, dt)

/-- Helper: `optMap` over a list is `none` as soon as one element maps to
`none`. -/
theorem optMap_eq_none_of_mem {α β : Type} (f : α → Option β) :
    ∀ (l : List α) (a : α), a ∈ l → f a = none → optMap f l = none := by
  intro l
  induction l with
  | nil => intro a ha; exact absurd ha (List.not_mem_nil a)
  | cons hd tl ih =>
    intro a ha hfa
    rcases List.mem_cons.mp ha with h | h
    · subst h
      simp [optMap, hfa]
    · cases hf : f hd with
      | none => simp [optMap, hf]
      | some b => simp [optMap, hf, ih a h hfa]

/-- Helper: the timer cell at internal row `i + 1` is `none` whenever the
state array has at most `i + 1` rows, because the source reads
`states[i + 1]` there. -/
theorem timerCellChecked_oob (resetP : ℚ → Bool) (resetVal : ℕ → Option ℚ)
    (dec : ℚ) (stateRows : List (List ℚ)) (carry : List ℚ) (i b : ℕ)
    (h : stateRows.length ≤ i + 1) :
    timerCellChecked resetP resetVal dec stateRows carry (i + 1) b = none := by
  have hg : stateRows[i + 1]? = none := by
    rw [List.getElem?_eq_none_iff]
    exact h
  simp [timerCellChecked, hg]

/-- Helper: with at least one tick and one entity the whole checked timer
matrix is `none`: the final loop iteration reads one row past the end of the
binary-state array. -/
theorem timerMatChecked_none (resetP : ℚ → Bool) (resetVal : ℕ → Option ℚ)
    (dec : ℚ) (stateRows : List (List ℚ)) (carry : List ℚ)
    (hT : 0 < stateRows.length) (hE : 0 < stateRows.headI.length) :
    timerMatChecked resetP resetVal dec stateRows carry = none := by
  obtain ⟨k, hk⟩ : ∃ k, stateRows.length = k + 1 :=
    ⟨stateRows.length - 1, (Nat.succ_pred_eq_of_pos hT).symm⟩
  have hkmem : k ∈ List.range stateRows.length :=
    List.mem_range.mpr (by omega)
  refine optMap_eq_none_of_mem _ _ k hkmem ?_
  refine optMap_eq_none_of_mem _ _ 0 (List.mem_range.mpr hE) ?_
  exact timerCellChecked_oob _ _ _ _ _ _ _ (by omega)

/-- C4: refuted (code bug).  The Timer Simulator is not total in its index
use: for every batch with at least one tick and at least one pad entity, the
pad loop reads row `T` of the `T`-row binary-state array (`boost_states[i]`
with `i = T`), an out-of-range access; under checked index semantics the
whole call fails.  (The njit build does not check bounds, so at runtime the
read silently yields an unspecified adjacent value instead of raising.) -/
theorem timer_simulator_not_total (carryBoost carryDemo : List ℚ)
    (locs : List (List ℚ)) (tickSkip : ℚ) (boostStates demoStates : List (List ℚ))
    (hT : 0 < boostStates.length) (hE : 0 < boostStates.headI.length) :
    updateTimersChecked carryBoost carryDemo locs tickSkip boostStates demoStates
      = none := by
  unfold updateTimersChecked
  rw [timerMatChecked_none _ _ _ _ _ hT hE]
  rfl

/-- Witness for `timer_simulator_not_total`: a two-tick, two-pad, one-player
batch. -/
theorem timer_simulator_not_total_witness :
    updateTimersChecked [0, 0] [0] [[0, 0, 0], [0, 0, 80]] 8
      [[1, 1], [1, 0]] [[0], [1]] = none :=
  timer_simulator_not_total _ _ _ _ _ _ (by decide) (by decide)

/-- C1: refuted (code bug).  On the spec's own scenario — a single-tick batch,
the one pad available (state 1), no eliminations, all-zero carried timers —
the claimed recurrence yields all-zero `1 × E` output matrices, but the code
reads binary-state row 1 of the 1-row arrays (out of range): under checked
index semantics the call fails instead of returning the all-zero matrices.
More generally the code drives output tick `i` by the binary state of tick
`i + 1`, not tick `i` as the claim states. -/
theorem timer_recurrence_single_tick_fails :
    updateTimersChecked [0] [0] [[0, 0, 73]] 8 [[1]] [[0]] = none := by
  decide

/-! ## Orientation Resolver (`NectoObsBuilder._quats_to_rot_mtx`)

The source negates the four quaternion components, computes the squared norm
of the original row, leaves the 3×3 matrix at its zero initialisation for
rows whose squared norm is exactly zero, and fills the nine entries with the
standard formulas scaled by `s = 1 / norm` otherwise. -/

/-- Squared norm of a quaternion row (`np.einsum("fq,fq->f", quats, quats)`). -/
def quatNormSq (w x y z : ℚ) : ℚ := w * w + x * x + y * y + z * z

/-- Entry `(r, c)` of the rotation matrix for one quaternion row, mirroring
the negation, the zero-norm selection mask, and the nine assignments of the
source. -/
def quatRot (w x y z : ℚ) (r c : ℕ) : ℚ :=
  if quatNormSq w x y z = 0 then 0
  else
    let w2 := -w
    let x2 := -x
    let y2 := -y
    let z2 := -z
    let s := 1 / quatNormSq w x y z
    if r = 0 ∧ c = 0 then 1 - 2 * s * (y2 * y2 + z2 * z2)
    else if r = 1 ∧ c = 0 then 2 * s * (x2 * y2 + z2 * w2)
    else if r = 2 ∧ c = 0 then 2 * s * (x2 * z2 - y2 * w2)
    else if r = 0 ∧ c = 1 then 2 * s * (x2 * y2 - z2 * w2)
    else if r = 1 ∧ c = 1 then 1 - 2 * s * (x2 * x2 + z2 * z2)
    else if r = 2 ∧ c = 1 then 2 * s * (y2 * z2 + x2 * w2)
    else if r = 0 ∧ c = 2 then 2 * s * (x2 * z2 + y2 * w2)
    else if r = 1 ∧ c = 2 then 2 * s * (y2 * z2 - x2 * w2)
    else if r = 2 ∧ c = 2 then 1 - 2 * s * (x2 * x2 + y2 * y2)
    else 0

/-- C7: confirmed.  If a quaternion row's squared norm is exactly zero, every
entry of its rotation basis — in particular the forward column (`c = 0`) and
the up column (`c = 2`) — is zero, and no division by the zero norm occurs
(the reciprocal is only formed in the nonzero branch).  Rows with nonzero
squared norm are computed normally: the forward and up columns equal the
standard quaternion-to-matrix formulas with `s = 1 / norm` (the source's
negation of all four components cancels in every product). -/
theorem quat_zero_norm_guard (w x y z : ℚ) :
    (quatNormSq w x y z = 0 → ∀ r c : ℕ, quatRot w x y z r c = 0) ∧
    (quatNormSq w x y z ≠ 0 →
      quatRot w x y z 0 0 = 1 - 2 / quatNormSq w x y z * (y * y + z * z) ∧
      quatRot w x y z 1 0 = 2 / quatNormSq w x y z * (x * y + z * w) ∧
      quatRot w x y z 2 0 = 2 / quatNormSq w x y z * (x * z - y * w) ∧
      quatRot w x y z 0 2 = 2 / quatNormSq w x y z * (x * z + y * w) ∧
      quatRot w x y z 1 2 = 2 / quatNormSq w x y z * (y * z - x * w) ∧
      quatRot w x y z 2 2 = 1 - 2 / quatNormSq w x y z * (x * x + y * y)) := by
  constructor
  · intro h r c
    simp [quatRot, h]
  · intro h
    have n00 : quatRot w x y z 0 0
        = if quatNormSq w x y z = 0 then 0
          else 1 - 2 * (1 / quatNormSq w x y z) * (-y * -y + -z * -z) := rfl
    have n10 : quatRot w x y z 1 0
        = if quatNormSq w x y z = 0 then 0
          else 2 * (1 / quatNormSq w x y z) * (-x * -y + -z * -w) := rfl
    have n20 : quatRot w x y z 2 0
        = if quatNormSq w x y z = 0 then 0
          else 2 * (1 / quatNormSq w x y z) * (-x * -z - -y * -w) := rfl
    have n02 : quatRot w x y z 0 2
        = if quatNormSq w x y z = 0 then 0
          else 2 * (1 / quatNormSq w x y z) * (-x * -z + -y * -w) := rfl
    have n12 : quatRot w x y z 1 2
        = if quatNormSq w x y z = 0 then 0
          else 2 * (1 / quatNormSq w x y z) * (-y * -z - -x * -w) := rfl
    have n22 : quatRot w x y z 2 2
        = if quatNormSq w x y z = 0 then 0
          else 1 - 2 * (1 / quatNormSq w x y z) * (-x * -x + -y * -y) := rfl
    refine ⟨?_, ?_, ?_, ?_, ?_, ?_⟩
    · rw [n00, if_neg h]; ring
    · rw [n10, if_neg h]; ring
    · rw [n20, if_neg h]; ring
    · rw [n02, if_neg h]; ring
    · rw [n12, if_neg h]; ring
    · rw [n22, if_neg h]; ring

/-- Witness for `quat_zero_norm_guard`: the zero quaternion yields a zero
basis entry, and a nonzero quaternion matches the formula. -/
theorem quat_zero_norm_guard_witness :
    quatRot 0 0 0 0 1 0 = 0 ∧
    quatRot 2 0 0 0 0 0 = 1 - 2 / quatNormSq 2 0 0 0 * (0 * 0 + 0 * 0) := by
  refine ⟨(quat_zero_norm_guard 0 0 0 0).1 (by norm_num [quatNormSq]) 1 0, ?_⟩
  exact ((quat_zero_norm_guard 2 0 0 0).2 (by norm_num [quatNormSq])).1

/-! ## Team Normalizer (`NectoObsBuilder._invert` and the swap at the call
site `kv[teams == 1] *= self._invert` followed by the teammate/opponent
channel exchange). -/

/-- The fixed ±1 inversion mask `NectoObsBuilder._invert`:
`[1]*5 ++ [-1,-1,1]*5 ++ [1]*5 ++ [1]*30` (channels 5–19 carry the
(-1, -1, 1) pattern per positional triple; every other channel is 1; indices
beyond 54 do not occur in a 55-channel row). -/
def invVec (c : ℕ) : ℚ :=
  if 5 ≤ c ∧ c ≤ 19 then (if (c - 5) % 3 = 2 then 1 else -1) else 1

/-- One application of the Team Normalizer to one entity row: elementwise
multiplication by the inversion mask, then the teammate (1) / opponent (2)
channel swap, as performed for observers on the non-default team. -/
def teamInvert (f : ℕ → ℚ) : ℕ → ℚ := fun c =>
  if c = 1 then f 2 * invVec 2
  else if c = 2 then f 1 * invVec 1
  else f c * invVec c

/-- Helper: the inversion mask squares to one at every channel. -/
theorem invVec_mul_self (c : ℕ) : invVec c * invVec c = 1 := by
  unfold invVec
  split_ifs <;> norm_num

/-- C8: confirmed.  Applying the Team Normalizer's inversion (mask
multiplication plus teammate/opponent swap) twice to any entity row restores
the row exactly, for every channel value. -/
theorem team_invert_involution : ∀ f : ℕ → ℚ, teamInvert (teamInvert f) = f := by
  intro f
  funext c
  by_cases h1 : c = 1
  · subst h1
    simp [teamInvert, invVec]
  · by_cases h2 : c = 2
    · subst h2
      simp [teamInvert, invVec]
    · simp only [teamInvert, if_neg h1, if_neg h2]
      rw [mul_assoc, invVec_mul_self, mul_one]

/-! ## Frame Transformer (`NectoObsBuilder.add_relative_components`)

`vals = kv[..., 5:20]` is a view of the Key-Value tensor, so the line
`vals[..., POS.start:LIN_VEL.stop] -= q[..., POS.start:LIN_VEL.stop]`
subtracts the observing player's position/linear-velocity block from kv
channels 10–15 (linear-velocity z, forward, up x/y) in place; the thirty
appended channels 25–54 are then computed from the modified values and
written.  The trigonometric functions and square root are abstract
parameters (`cosF`, `sinF`, `atanF`, `sqrtF`); `atanF a b` stands for
`np.arctan2(a, b)`. -/

/-- One observing player/tick slice of `add_relative_components`: `q` is the
player's query row, `kv` the entity-row/channel map; the result is the
channel map after the call. -/
def addRelK (cosF sinF : ℚ → ℚ) (atanF : ℚ → ℚ → ℚ) (sqrtF : ℚ → ℚ)
    (q : ℕ → ℚ) (kv : ℕ → ℕ → ℚ) : ℕ → ℕ → ℚ := fun e c =>
  let kv1 : ℕ → ℚ := fun d => if 10 ≤ d ∧ d ≤ 15 then kv e d - q (d - 5) else kv e d
  if c < 25 then kv1 c
  else
    let fw : ℕ → ℚ := fun j => q (11 + j)
    let up : ℕ → ℚ := fun j => q (14 + j)
    let leftZ : ℚ := up 0 * fw 1 - up 1 * fw 0
    let pitch := atanF (fw 2) (sqrtF (fw 0 * fw 0 + fw 1 * fw 1))
    let yaw := atanF (fw 1) (fw 0)
    let roll := atanF leftZ (up 2)
    let cr := cosF roll
    let sr := sinF roll
    let cp := cosF pitch
    let sp := sinF pitch
    let cy := cosF yaw
    let sy := sinF yaw
    let xs : ℕ → ℚ := fun m => kv1 (5 + 3 * m)
    let ys : ℕ → ℚ := fun m => kv1 (5 + 3 * m + 1)
    let zs : ℕ → ℚ := fun m => kv1 (5 + 3 * m + 2)
    let k := c - 25
    if k < 5 then cy * xs k - sy * ys k
    else if k < 10 then sy * xs (k - 5) + cy * ys (k - 5)
    else if k < 15 then zs (k - 10)
    else if k < 20 then
      cp * cy * xs (k - 15) + (sr * sp * cy - cr * sy) * ys (k - 15)
        - (cr * sp * cy + sr * sy) * zs (k - 15)
    else if k < 25 then
      cp * sy * xs (k - 20) + (sr * sp * sy + cr * cy) * ys (k - 20)
        - (cr * sp * sy - sr * cy) * zs (k - 20)
    else if k < 30 then
      sp * xs (k - 25) - cp * sr * ys (k - 25) + cp * cr * zs (k - 25)
    else kv1 c

/-- Helper (shared): the effect of `add_relative_components` on the 25 base
channels: channels outside 10–15 are unchanged, channels 10–15 are
decremented by the query's position/linear-velocity block. -/
theorem addRelK_base (cosF sinF : ℚ → ℚ) (atanF : ℚ → ℚ → ℚ) (sqrtF : ℚ → ℚ)
    (q : ℕ → ℚ) (kv : ℕ → ℕ → ℚ) (e c : ℕ) (hc : c < 25) :
    addRelK cosF sinF atanF sqrtF q kv e c =
      if 10 ≤ c ∧ c ≤ 15 then kv e c - q (c - 5) else kv e c := by
  simp [addRelK, hc]

/-- Concrete query row for the C3 counterexample: the observing player's
position x channel (5) holds 1, everything else 0. -/
def qEx : ℕ → ℚ := fun d => if d = 5 then 1 else 0

/-- Concrete all-zero Key-Value row map for the C3 counterexample. -/
def kvEx : ℕ → ℕ → ℚ := fun _ _ => 0

/-- C3 counterexample: with the observing player's position x equal to 1 and
an all-zero Key-Value tensor, base channel 10 (linear-velocity z) of entity
row 0 changes from 0 to -1 across the call — the claim that every
pre-existing base channel is unchanged is false. -/
theorem add_relative_modifies_base_channel :
    addRelK (fun _ => 0) (fun _ => 0) (fun _ _ => 0) (fun _ => 0) qEx kvEx 0 10
      ≠ kvEx 0 10 := by
  norm_num [addRelK, qEx, kvEx]

/-- C3: corrected.  For all trigonometric parameters, query rows and
Key-Value maps, `add_relative_components` leaves base channels 0–9 and 16–24
(kind indicators, position, linear-velocity x/y, up z, angular velocity,
charge, timer, flags) exactly unchanged, while base channels 10–15
(linear-velocity z, forward, up x/y) are decremented by the observing
player's position/linear-velocity block through the in-place view; channels
from 25 on hold the appended relative-frame values. -/
theorem add_relative_base_channels (cosF sinF : ℚ → ℚ) (atanF : ℚ → ℚ → ℚ)
    (sqrtF : ℚ → ℚ) (q : ℕ → ℚ) (kv : ℕ → ℕ → ℚ) (e c : ℕ) (hc : c < 25) :
    addRelK cosF sinF atanF sqrtF q kv e c =
      if 10 ≤ c ∧ c ≤ 15 then kv e c - q (c - 5) else kv e c := by
  simp [addRelK, hc]

/-- Witness for `add_relative_base_channels`: at channel 10 with the
concrete inputs above the call yields the decremented value. -/
theorem add_relative_base_channels_witness :
    addRelK (fun _ => 0) (fun _ => 0) (fun _ _ => 0) (fun _ => 0) qEx
      (fun _ _ => 3) 0 10 = 2 := by
  rw [add_relative_base_channels _ _ _ _ _ _ _ _ (by norm_num)]
  norm_num [qEx]

/-! ## `NectoObsBuilder.batched_build_obs`

The encoded state batch is a `T × W` matrix (one row per tick).  The fixed
part of the layout hard-coded in the source: 3 header fields, 34 pad
availability bits starting at column 3, the ball block starting at column
37 (`3 + GameState.BOOST_PADS_LENGTH`, with `BOOST_PADS_LENGTH = 34`), the
player blocks starting at column `37 + BALL_STATE_LENGTH`.
`BALL_STATE_LENGTH`, `PLAYER_INFO_LENGTH` and the in-block field offsets
(`StateConstants`) come from external libraries and are carried as context
parameters; the team field offset (1) and the demolition flag offset (33)
inside a player block are literals in the source.  The Key-Value tensor is
modelled as the value function obtained by replaying the source's
assignments in order (a later assignment wins on overlapping cells). -/

/-- Configuration and carried state of one `NectoObsBuilder` instance plus
the external layout constants.  Fields in order: `limPlayers`
(`self.n_players`), `tickSkip`, `boostLocations` (the 34 fixed pad
locations), `ballStateLength`, `playerLength` (`PLAYER_INFO_LENGTH`),
`scPos`, `scQuat`, `scLinVel`, `scAngVel`, `scBoost`, `scGround`, `scFlip`,
`scJump` (block-relative `StateConstants` offsets; the quaternion, position,
linear- and angular-velocity fields are contiguous runs), `carriedBoost`,
`carriedDemo` (the instance's timer carry rows). -/
structure BuildCtx where
  limPlayers : ℕ
  tickSkip : ℚ
  boostLocations : List (List ℚ)
  ballStateLength : ℕ
  playerLength : ℕ
  scPos : ℕ
  scQuat : ℕ
  scLinVel : ℕ
  scAngVel : ℕ
  scBoost : ℕ
  scGround : ℕ
  scFlip : ℕ
  scJump : ℕ
  carriedBoost : List ℚ
  carriedDemo : List ℚ

/-- Row width of the encoded batch (numpy `shape[1]`). -/
def encWidth (enc : List (List ℚ)) : ℕ := enc.headI.length

/-- `players_start_index = ball_start_index + BALL_STATE_LENGTH` with
`ball_start_index = 3 + 34`. -/
def playersStart (ctx : BuildCtx) : ℕ := 37 + ctx.ballStateLength

/-- `n_players = (encoded_states.shape[1] - players_start_index) //
player_length` (the actual player count of the batch). -/
def nPlayersOf (ctx : BuildCtx) (enc : List (List ℚ)) : ℕ :=
  (encWidth enc - playersStart ctx) / ctx.playerLength

/-- `n_entities = lim_players + 1 + 34`. -/
def nEntitiesOf (ctx : BuildCtx) : ℕ := ctx.limPlayers + 1 + 34

/-- Team of player `j`, read from tick 0
(`encoded_states[0, players_start_index + 1::player_length]`). -/
def teamOf (ctx : BuildCtx) (enc : List (List ℚ)) (j : ℕ) : ℚ :=
  at2 enc 0 (playersStart ctx + 1 + j * ctx.playerLength)

/-- Field `off` of player `j`'s block at tick `t`. -/
def pRead (ctx : BuildCtx) (enc : List (List ℚ)) (t j off : ℕ) : ℚ :=
  at2 enc t (playersStart ctx + j * ctx.playerLength + off)

/-- Column count of the pad-state slice `encoded_states[:, 3:3+34]`. -/
def boostColsOf (enc : List (List ℚ)) : ℕ :=
  min (encWidth enc) 37 - min (encWidth enc) 3

/-- Number of columns of the strided slice `a[:, start::step]` of a matrix
with `W` columns. -/
def sliceCount (W start step : ℕ) : ℕ :=
  if start < W then (W - start + step - 1) / step else 0

/-- Column count of the demolition-flag slice
`encoded_states[:, players_start_index + 33::player_length]`. -/
def demoColsOf (ctx : BuildCtx) (enc : List (List ℚ)) : ℕ :=
  sliceCount (encWidth enc) (playersStart ctx + 33) ctx.playerLength

/-- Timer value at internal row `i` (row 0 = carry), entity `b`, under the
njit build's unchecked indexing: `stateAt` supplies `states[i, b]` for every
`i`, including the out-of-range read at `i = T` (see `timerRecT` callers). -/
def timerRecT (resetP : ℚ → Bool) (resetVal : ℕ → ℚ) (dec : ℚ)
    (stateAt : ℕ → ℕ → ℚ) (carry : ℕ → ℚ) : ℕ → ℕ → ℚ
  | 0, b => carry b
  | i + 1, b =>
    if resetP (stateAt (i + 1) b) then resetVal b
    else
      let p := timerRecT resetP resetVal dec stateAt carry i b
      if 0 < p then max 0 (p - dec) else 0

/-- Pad binary state at internal row `i`, entity `b`; out-of-range reads
(in particular row `T`) yield the unspecified value `oobB i b`. -/
def boostStateAt (enc : List (List ℚ)) (oobB : ℕ → ℕ → ℚ) (i b : ℕ) : ℚ :=
  if i < enc.length ∧ b < boostColsOf enc then at2 enc i (3 + b) else oobB i b

/-- Player elimination flag at internal row `i`, player `j`; out-of-range
reads yield `oobD i j`. -/
def demoStateAt (ctx : BuildCtx) (enc : List (List ℚ)) (oobD : ℕ → ℕ → ℚ)
    (i j : ℕ) : ℚ :=
  if i < enc.length ∧ j < demoColsOf ctx enc then
    at2 enc i (playersStart ctx + 33 + j * ctx.playerLength)
  else oobD i j

/-- Row `t` (0-based output tick), pad `b` of the returned pad-timer matrix
`boost_timers[1:]`. -/
def boostTimerOut (ctx : BuildCtx) (enc : List (List ℚ)) (oobB : ℕ → ℕ → ℚ)
    (t b : ℕ) : ℚ :=
  timerRecT (fun s => s == 0)
    (fun b2 => if 72 < at2 ctx.boostLocations b2 2 then 10 else 4)
    (ctx.tickSkip / 120) (boostStateAt enc oobB)
    (fun b2 => ctx.carriedBoost.getD b2 0) (t + 1) b

/-- Row `t`, player `j` of the returned demolition-timer matrix
`demo_timers[1:]`. -/
def demoTimerOut (ctx : BuildCtx) (enc : List (List ℚ)) (oobD : ℕ → ℕ → ℚ)
    (t j : ℕ) : ℚ :=
  timerRecT (fun s => s == 1) (fun _ => 3) (ctx.tickSkip / 120)
    (demoStateAt ctx enc oobD) (fun j2 => ctx.carriedDemo.getD j2 0) (t + 1) j

/-- Channels 5–24 of player row `j` as written by the per-player loop:
position, linear velocity, forward and up basis (from the orientation
resolver), angular velocity, boost amount, demolition timer, on-ground,
has-flip and has-jump flags. -/
def playerChan (ctx : BuildCtx) (enc : List (List ℚ)) (oobD : ℕ → ℕ → ℚ)
    (t j c : ℕ) : ℚ :=
  if c ≤ 7 then pRead ctx enc t j (ctx.scPos + (c - 5))
  else if c ≤ 10 then pRead ctx enc t j (ctx.scLinVel + (c - 8))
  else if c ≤ 13 then
    quatRot (pRead ctx enc t j ctx.scQuat) (pRead ctx enc t j (ctx.scQuat + 1))
      (pRead ctx enc t j (ctx.scQuat + 2)) (pRead ctx enc t j (ctx.scQuat + 3))
      (c - 11) 0
  else if c ≤ 16 then
    quatRot (pRead ctx enc t j ctx.scQuat) (pRead ctx enc t j (ctx.scQuat + 1))
      (pRead ctx enc t j (ctx.scQuat + 2)) (pRead ctx enc t j (ctx.scQuat + 3))
      (c - 14) 2
  else if c ≤ 19 then pRead ctx enc t j (ctx.scAngVel + (c - 17))
  else if c = 20 then pRead ctx enc t j ctx.scBoost
  else if c = 21 then demoTimerOut ctx enc oobD t j
  else if c = 22 then pRead ctx enc t j ctx.scGround
  else if c = 23 then pRead ctx enc t j ctx.scFlip
  else pRead ctx enc t j ctx.scJump

/-- Value of Key-Value cell `(observer i, tick t, entity e, channel c)` after
all direct assignments (ball row at index `lim_players`; pad rows above it;
teammate/opponent indicators and the per-player loop on rows below the
actual player count) and before team inversion.  The branches are ordered so
that a later source assignment takes precedence. -/
def kvPre (ctx : BuildCtx) (enc : List (List ℚ)) (oobB oobD : ℕ → ℕ → ℚ)
    (i t e c : ℕ) : ℚ :=
  if e < nPlayersOf ctx enc ∧ c = 0 then (if i = e then 1 else 0)
  else if e < nPlayersOf ctx enc ∧ 5 ≤ c ∧ c ≤ 24 then playerChan ctx enc oobD t e c
  else if e < nPlayersOf ctx enc ∧ c = 1 then 1 - teamOf ctx enc e
  else if e < nPlayersOf ctx enc ∧ c = 2 then teamOf ctx enc e
  else if e = ctx.limPlayers ∧ c = 3 then 1
  else if e = ctx.limPlayers ∧ 5 ≤ c ∧ c ≤ 10 then at2 enc t (37 + (c - 5))
  else if e = ctx.limPlayers ∧ 17 ≤ c ∧ c ≤ 19 then at2 enc t (37 + 6 + (c - 17))
  else if ctx.limPlayers + 1 ≤ e ∧ c = 4 then 1
  else if ctx.limPlayers + 1 ≤ e ∧ 5 ≤ c ∧ c ≤ 7 then
    at2 ctx.boostLocations (e - ctx.limPlayers - 1) (c - 5)
  else if ctx.limPlayers + 1 ≤ e ∧ c = 20 then 1
  else if ctx.limPlayers + 1 ≤ e ∧ c = 21 then
    boostTimerOut ctx enc oobB t (e - ctx.limPlayers - 1)
  else 0

/-- Key-Value cell after the team canonicalisation
(`kv[teams == 1] *= self._invert` followed by the teammate/opponent swap,
applied to observers whose team field is 1). -/
def kvInv (ctx : BuildCtx) (enc : List (List ℚ)) (oobB oobD : ℕ → ℕ → ℚ)
    (i t e c : ℕ) : ℚ :=
  if teamOf ctx enc i = 1 then
    (if c = 1 then kvPre ctx enc oobB oobD i t e 2 * invVec 2
     else if c = 2 then kvPre ctx enc oobB oobD i t e 1 * invVec 1
     else kvPre ctx enc oobB oobD i t e c * invVec c)
  else kvPre ctx enc oobB oobD i t e c

/-- The channelwise normalisation vector `NectoObsBuilder._norm`:
`[1]*5 ++ [2300]*6 ++ [1]*6 ++ [5.5]*3 ++ [1,10,1,1,1] ++ [1]*30`. -/
def normVec (c : ℕ) : ℚ :=
  if 5 ≤ c ∧ c ≤ 10 then 2300
  else if 17 ≤ c ∧ c ≤ 19 then 5.5
  else if c = 21 then 10
  else 1

/-- Key-Value cell after `kv /= self._norm`. -/
def kvNorm (ctx : BuildCtx) (enc : List (List ℚ)) (oobB oobD : ℕ → ℕ → ℚ)
    (i t e c : ℕ) : ℚ :=
  kvInv ctx enc oobB oobD i t e c / normVec c

/-- Query row of observer `i` at tick `t`
(`q[i, :, 0, :HAS_JUMP + 1] = kv[i, :, i, :HAS_JUMP + 1]`; the action range
is still zero at this point). -/
def qRowF (ctx : BuildCtx) (enc : List (List ℚ)) (oobB oobD : ℕ → ℕ → ℚ)
    (i t c : ℕ) : ℚ :=
  if c ≤ 24 then kvNorm ctx enc oobB oobD i t i c else 0

/-- Key-Value cell of the returned tensors: the state after
`add_relative_components(q, kv)`. -/
def kvFinal (ctx : BuildCtx) (enc : List (List ℚ)) (oobB oobD : ℕ → ℕ → ℚ)
    (cosF sinF : ℚ → ℚ) (atanF : ℚ → ℚ → ℚ) (sqrtF : ℚ → ℚ)
    (i t e c : ℕ) : ℚ :=
  addRelK cosF sinF atanF sqrtF (qRowF ctx enc oobB oobD i t)
    (fun e2 c2 => kvNorm ctx enc oobB oobD i t e2 c2) e c

/-- Mask cell `(observer i, tick t, entity e)`:
`m = zeros(...)` then `m[:, :, n_players:lim_players] = 1`. -/
def maskVal (ctx : BuildCtx) (enc : List (List ℚ)) (i t e : ℕ) : ℚ :=
  if nPlayersOf ctx enc ≤ e ∧ e < ctx.limPlayers then 1 else 0

/-! ### Concrete instances used by the counterexamples and witnesses -/

/-- A concrete builder context: capacity 6, tick skip 8, all pad locations
at the origin, ball block of 18 fields, player blocks of 38 fields with
plausible distinct in-block offsets (pos 2–4, quat 5–8, linear velocity
9–11, angular velocity 12–14, boost 28, ground 34, flip 35, jump 36; the
team field is at 1 and the demolition flag at 33, both literals of the
source), zero carried timers. -/
def ctx0 : BuildCtx :=
  ⟨6, 8, List.replicate 34 [0, 0, 0], 18, 38, 2, 5, 9, 12, 28, 34, 35, 36,
   List.replicate 34 0, [0]⟩

/-- A single-tick batch with one (blue, all-zero) player: 3 header fields,
34 available pads, a zero ball block (18), one zero player block (38). -/
def enc0 : List (List ℚ) :=
  [List.replicate 3 0 ++ List.replicate 34 1 ++ List.replicate 56 0]

/-- A single-tick batch with two (blue, all-zero) players: width
3 + 34 + 18 + 2·38 = 131. -/
def enc2 : List (List ℚ) :=
  [List.replicate 3 0 ++ List.replicate 34 1 ++ List.replicate 94 0]

/-! ### Mask -/

/-- C9: confirmed.  Whenever the configured capacity is at least the actual
player count, the Mask marks exactly `capacity - actual` entity rows as
invalid (value 1) — precisely the player rows from the actual count up to
the capacity — the set of invalid rows does not depend on the tick or the
observing player, and every other entity row is marked valid (value 0). -/
theorem mask_invalid_rows (ctx : BuildCtx) (enc : List (List ℚ))
    (hn : nPlayersOf ctx enc ≤ ctx.limPlayers) :
    ∀ i t : ℕ,
      ((Finset.range (nEntitiesOf ctx)).filter
          (fun e => maskVal ctx enc i t e = 1)).card
        = ctx.limPlayers - nPlayersOf ctx enc
      ∧ (∀ e, e < nEntitiesOf ctx →
          (maskVal ctx enc i t e = 1 ↔
            nPlayersOf ctx enc ≤ e ∧ e < ctx.limPlayers))
      ∧ (∀ i2 t2 e, maskVal ctx enc i t e = maskVal ctx enc i2 t2 e) := by
  intro i t
  have hiff : ∀ e, maskVal ctx enc i t e = 1 ↔
      nPlayersOf ctx enc ≤ e ∧ e < ctx.limPlayers := by
    intro e
    unfold maskVal
    split_ifs with hcond
    · simp [hcond]
    · simp [hcond]
  refine ⟨?_, fun e _ => hiff e, fun i2 t2 e => rfl⟩
  have hset : (Finset.range (nEntitiesOf ctx)).filter
      (fun e => maskVal ctx enc i t e = 1)
      = Finset.Ico (nPlayersOf ctx enc) ctx.limPlayers := by
    ext e
    simp only [Finset.mem_filter, Finset.mem_range, Finset.mem_Ico, hiff e,
      nEntitiesOf]
    omega
  rw [hset, Nat.card_Ico]

set_option maxRecDepth 8000 in
/-- Witness for `mask_invalid_rows`: with two actual players and capacity
six, exactly four of the 41 entity rows are marked invalid. -/
theorem mask_invalid_rows_witness :
    ((Finset.range (nEntitiesOf ctx0)).filter
        (fun e => maskVal ctx0 enc2 0 0 e = 1)).card = 4 := by
  have h := (mask_invalid_rows ctx0 enc2 (by decide) 0 0).1
  exact h.trans (by decide)

/-! ### Channel-value helper lemmas for the Key-Value pipeline -/

/-- Helper: the normalisation vector is 1 on the kind-indicator channels. -/
theorem normVec_kind (c : ℕ) (h : c ≤ 4) : normVec c = 1 := by
  unfold normVec
  split_ifs <;> first | rfl | omega

/-- Helper: the inversion mask is 1 on the kind-indicator channels. -/
theorem invVec_kind (c : ℕ) (h : c ≤ 4) : invVec c = 1 := by
  unfold invVec
  split_ifs <;> first | rfl | omega

/-- Helper: on channels other than the teammate/opponent pair with mask
value 1, the team canonicalisation is the identity. -/
theorem kvInv_eq_pre (ctx : BuildCtx) (enc : List (List ℚ))
    (oobB oobD : ℕ → ℕ → ℚ) (i t e c : ℕ) (hc1 : c ≠ 1) (hc2 : c ≠ 2)
    (hv : invVec c = 1) :
    kvInv ctx enc oobB oobD i t e c = kvPre ctx enc oobB oobD i t e c := by
  unfold kvInv
  rcases eq_or_ne (teamOf ctx enc i) 1 with ht | ht
  · rw [if_pos ht, if_neg hc1, if_neg hc2, hv, mul_one]
  · rw [if_neg ht]

/-- Helper: a base channel of the final Key-Value tensor outside the
aliased 10–15 range equals its normalised value. -/
theorem kvFinal_eq_norm (ctx : BuildCtx) (enc : List (List ℚ))
    (oobB oobD : ℕ → ℕ → ℚ) (cosF sinF : ℚ → ℚ) (atanF : ℚ → ℚ → ℚ)
    (sqrtF : ℚ → ℚ) (i t e c : ℕ) (hc : c < 25) (hc2 : ¬(10 ≤ c ∧ c ≤ 15)) :
    kvFinal ctx enc oobB oobD cosF sinF atanF sqrtF i t e c
      = kvNorm ctx enc oobB oobD i t e c := by
  unfold kvFinal
  rw [addRelK_base _ _ _ _ _ _ _ _ hc, if_neg hc2]

/-- Helper: a kind-indicator channel of the final Key-Value tensor equals
its value after team canonicalisation (normalisation divides by 1 there and
the frame transform does not touch it). -/
theorem kvFinal_kind (ctx : BuildCtx) (enc : List (List ℚ))
    (oobB oobD : ℕ → ℕ → ℚ) (cosF sinF : ℚ → ℚ) (atanF : ℚ → ℚ → ℚ)
    (sqrtF : ℚ → ℚ) (i t e c : ℕ) (hc : c ≤ 4) :
    kvFinal ctx enc oobB oobD cosF sinF atanF sqrtF i t e c
      = kvInv ctx enc oobB oobD i t e c := by
  rw [kvFinal_eq_norm _ _ _ _ _ _ _ _ _ _ _ _ (by omega) (by omega)]
  unfold kvNorm
  rw [normVec_kind c hc, div_one]

/-- Helper: channel 0 (self flag) before canonicalisation: 1 exactly on the
observing player's own row among actual player rows. -/
theorem kvPre_c0 (ctx : BuildCtx) (enc : List (List ℚ))
    (oobB oobD : ℕ → ℕ → ℚ) (i t e : ℕ) :
    kvPre ctx enc oobB oobD i t e 0
      = if e < nPlayersOf ctx enc ∧ i = e then 1 else 0 := by
  unfold kvPre
  rcases Nat.lt_or_ge e (nPlayersOf ctx enc) with he | he
  · rw [if_pos ⟨he, rfl⟩]
    by_cases hie : i = e
    · rw [if_pos hie, if_pos ⟨he, hie⟩]
    · rw [if_neg hie, if_neg (fun h => hie h.2)]
  · repeat rw [if_neg (by omega)]

/-- Helper: channel 1 (teammate flag) before canonicalisation. -/
theorem kvPre_c1 (ctx : BuildCtx) (enc : List (List ℚ))
    (oobB oobD : ℕ → ℕ → ℚ) (i t e : ℕ) :
    kvPre ctx enc oobB oobD i t e 1
      = if e < nPlayersOf ctx enc then 1 - teamOf ctx enc e else 0 := by
  unfold kvPre
  rcases Nat.lt_or_ge e (nPlayersOf ctx enc) with he | he
  · repeat rw [if_neg (by omega)]
    rw [if_pos ⟨he, rfl⟩, if_pos he]
  · repeat rw [if_neg (by omega)]

/-- Helper: channel 2 (opponent flag) before canonicalisation. -/
theorem kvPre_c2 (ctx : BuildCtx) (enc : List (List ℚ))
    (oobB oobD : ℕ → ℕ → ℚ) (i t e : ℕ) :
    kvPre ctx enc oobB oobD i t e 2
      = if e < nPlayersOf ctx enc then teamOf ctx enc e else 0 := by
  unfold kvPre
  rcases Nat.lt_or_ge e (nPlayersOf ctx enc) with he | he
  · repeat rw [if_neg (by omega)]
    rw [if_pos ⟨he, rfl⟩, if_pos he]
  · repeat rw [if_neg (by omega)]

/-- Helper: channel 3 (ball flag): 1 exactly on the ball row. -/
theorem kvPre_c3 (ctx : BuildCtx) (enc : List (List ℚ))
    (oobB oobD : ℕ → ℕ → ℚ) (i t e : ℕ) :
    kvPre ctx enc oobB oobD i t e 3
      = if e = ctx.limPlayers then 1 else 0 := by
  unfold kvPre
  rcases eq_or_ne e ctx.limPlayers with he | he
  · repeat rw [if_neg (by omega)]
    rw [if_pos ⟨he, rfl⟩, if_pos he]
  · repeat rw [if_neg (by omega)]

/-- Helper: channel 4 (pad flag): 1 exactly on the pad rows. -/
theorem kvPre_c4 (ctx : BuildCtx) (enc : List (List ℚ))
    (oobB oobD : ℕ → ℕ → ℚ) (i t e : ℕ) :
    kvPre ctx enc oobB oobD i t e 4
      = if ctx.limPlayers + 1 ≤ e then 1 else 0 := by
  unfold kvPre
  rcases Nat.lt_or_ge e (ctx.limPlayers + 1) with he | he
  · repeat rw [if_neg (by omega)]
  · repeat rw [if_neg (by omega)]
    rw [if_pos ⟨he, rfl⟩, if_pos he]

/-- Helper: the final value of the self-flag channel. -/
theorem kvFinal_c0 (ctx : BuildCtx) (enc : List (List ℚ))
    (oobB oobD : ℕ → ℕ → ℚ) (cosF sinF : ℚ → ℚ) (atanF : ℚ → ℚ → ℚ)
    (sqrtF : ℚ → ℚ) (i t e : ℕ) :
    kvFinal ctx enc oobB oobD cosF sinF atanF sqrtF i t e 0
      = if e < nPlayersOf ctx enc ∧ i = e then 1 else 0 := by
  rw [kvFinal_kind _ _ _ _ _ _ _ _ _ _ _ _ (by omega),
    kvInv_eq_pre _ _ _ _ _ _ _ _ (by omega) (by omega) (invVec_kind 0 (by omega)),
    kvPre_c0]

/-- Helper: the final value of the ball-flag channel. -/
theorem kvFinal_c3 (ctx : BuildCtx) (enc : List (List ℚ))
    (oobB oobD : ℕ → ℕ → ℚ) (cosF sinF : ℚ → ℚ) (atanF : ℚ → ℚ → ℚ)
    (sqrtF : ℚ → ℚ) (i t e : ℕ) :
    kvFinal ctx enc oobB oobD cosF sinF atanF sqrtF i t e 3
      = if e = ctx.limPlayers then 1 else 0 := by
  rw [kvFinal_kind _ _ _ _ _ _ _ _ _ _ _ _ (by omega),
    kvInv_eq_pre _ _ _ _ _ _ _ _ (by omega) (by omega) (invVec_kind 3 (by omega)),
    kvPre_c3]

/-- Helper: the final value of the pad-flag channel. -/
theorem kvFinal_c4 (ctx : BuildCtx) (enc : List (List ℚ))
    (oobB oobD : ℕ → ℕ → ℚ) (cosF sinF : ℚ → ℚ) (atanF : ℚ → ℚ → ℚ)
    (sqrtF : ℚ → ℚ) (i t e : ℕ) :
    kvFinal ctx enc oobB oobD cosF sinF atanF sqrtF i t e 4
      = if ctx.limPlayers + 1 ≤ e then 1 else 0 := by
  rw [kvFinal_kind _ _ _ _ _ _ _ _ _ _ _ _ (by omega),
    kvInv_eq_pre _ _ _ _ _ _ _ _ (by omega) (by omega) (invVec_kind 4 (by omega)),
    kvPre_c4]

/-- Helper: the final value of the teammate-flag channel (after the swap for
observers on team 1). -/
theorem kvFinal_c1 (ctx : BuildCtx) (enc : List (List ℚ))
    (oobB oobD : ℕ → ℕ → ℚ) (cosF sinF : ℚ → ℚ) (atanF : ℚ → ℚ → ℚ)
    (sqrtF : ℚ → ℚ) (i t e : ℕ) :
    kvFinal ctx enc oobB oobD cosF sinF atanF sqrtF i t e 1
      = if e < nPlayersOf ctx enc then
          (if teamOf ctx enc i = 1 then teamOf ctx enc e
           else 1 - teamOf ctx enc e)
        else 0 := by
  rw [kvFinal_kind _ _ _ _ _ _ _ _ _ _ _ _ (by omega)]
  unfold kvInv
  rcases eq_or_ne (teamOf ctx enc i) 1 with ht | ht
  · rw [if_pos ht, if_pos rfl, invVec_kind 2 (by omega), mul_one, kvPre_c2]
    by_cases hen : e < nPlayersOf ctx enc
    · rw [if_pos hen, if_pos hen, if_pos ht]
    · rw [if_neg hen, if_neg hen]
  · rw [if_neg ht, kvPre_c1]
    by_cases hen : e < nPlayersOf ctx enc
    · rw [if_pos hen, if_pos hen, if_neg ht]
    · rw [if_neg hen, if_neg hen]

/-- Helper: the final value of the opponent-flag channel (after the swap for
observers on team 1). -/
theorem kvFinal_c2 (ctx : BuildCtx) (enc : List (List ℚ))
    (oobB oobD : ℕ → ℕ → ℚ) (cosF sinF : ℚ → ℚ) (atanF : ℚ → ℚ → ℚ)
    (sqrtF : ℚ → ℚ) (i t e : ℕ) :
    kvFinal ctx enc oobB oobD cosF sinF atanF sqrtF i t e 2
      = if e < nPlayersOf ctx enc then
          (if teamOf ctx enc i = 1 then 1 - teamOf ctx enc e
           else teamOf ctx enc e)
        else 0 := by
  rw [kvFinal_kind _ _ _ _ _ _ _ _ _ _ _ _ (by omega)]
  unfold kvInv
  rcases eq_or_ne (teamOf ctx enc i) 1 with ht | ht
  · rw [if_pos ht, if_neg (by omega), if_pos rfl, invVec_kind 1 (by omega),
      mul_one, kvPre_c1]
    by_cases hen : e < nPlayersOf ctx enc
    · rw [if_pos hen, if_pos hen, if_pos ht]
    · rw [if_neg hen, if_neg hen]
  · rw [if_neg ht, kvPre_c2]
    by_cases hen : e < nPlayersOf ctx enc
    · rw [if_pos hen, if_pos hen, if_neg ht]
    · rw [if_neg hen, if_neg hen]

/-! ### Kind-indicator exclusivity -/

/-- C6 counterexample: in the one-player batch `enc0`, entity row 0 of
observer 0's Key-Value tensor carries both the self flag (channel 0) and the
teammate flag (channel 1) with value 1 — two of the five kind-indicator
channels are nonzero in one row, so they are not mutually exclusive as
claimed. -/
theorem kind_flags_not_exclusive :
    kvFinal ctx0 enc0 (fun _ _ => 0) (fun _ _ => 0) (fun _ => 0) (fun _ => 0)
        (fun _ _ => 0) (fun _ => 0) 0 0 0 0 = 1
    ∧ kvFinal ctx0 enc0 (fun _ _ => 0) (fun _ _ => 0) (fun _ => 0) (fun _ => 0)
        (fun _ _ => 0) (fun _ => 0) 0 0 0 1 = 1 := by
  have hn : nPlayersOf ctx0 enc0 = 1 := by decide
  have ht : teamOf ctx0 enc0 0 = 0 := by decide
  constructor
  · rw [kvFinal_c0, if_pos ⟨by omega, rfl⟩]
  · rw [kvFinal_c1, if_pos (by omega), if_neg (by rw [ht]; norm_num), ht,
      sub_zero]

/-- C6: corrected.  With binary team fields, the five kind-indicator
channels of any final Key-Value row are mutually exclusive on every row
except the observing player's own row: whenever two distinct kind channels
are both nonzero in one row, the lower one is the self flag, the higher one
is the teammate or opponent flag, and the row is the observing player's own
row (which always carries the self flag together with its teammate/opponent
flag). -/
theorem kind_flags_near_exclusive (ctx : BuildCtx) (enc : List (List ℚ))
    (oobB oobD : ℕ → ℕ → ℚ) (cosF sinF : ℚ → ℚ) (atanF : ℚ → ℚ → ℚ)
    (sqrtF : ℚ → ℚ) (i t e : ℕ)
    (hn : nPlayersOf ctx enc ≤ ctx.limPlayers)
    (hteam : ∀ j, j < nPlayersOf ctx enc →
      teamOf ctx enc j = 0 ∨ teamOf ctx enc j = 1) :
    ∀ c1 c2, c1 < c2 → c2 ≤ 4 →
      kvFinal ctx enc oobB oobD cosF sinF atanF sqrtF i t e c1 ≠ 0 →
      kvFinal ctx enc oobB oobD cosF sinF atanF sqrtF i t e c2 ≠ 0 →
      c1 = 0 ∧ (c2 = 1 ∨ c2 = 2) ∧ e = i := by
  have ha : kvFinal ctx enc oobB oobD cosF sinF atanF sqrtF i t e 0 ≠ 0 →
      e < nPlayersOf ctx enc ∧ i = e := by
    intro h
    rw [kvFinal_c0] at h
    by_contra hc
    rw [if_neg hc] at h
    exact h rfl
  have hd : kvFinal ctx enc oobB oobD cosF sinF atanF sqrtF i t e 3 ≠ 0 →
      e = ctx.limPlayers := by
    intro h
    rw [kvFinal_c3] at h
    by_contra hc
    rw [if_neg hc] at h
    exact h rfl
  have he4 : kvFinal ctx enc oobB oobD cosF sinF atanF sqrtF i t e 4 ≠ 0 →
      ctx.limPlayers + 1 ≤ e := by
    intro h
    rw [kvFinal_c4] at h
    by_contra hc
    rw [if_neg hc] at h
    exact h rfl
  have hb1 : kvFinal ctx enc oobB oobD cosF sinF atanF sqrtF i t e 1 ≠ 0 →
      e < nPlayersOf ctx enc := by
    intro h
    rw [kvFinal_c1] at h
    by_contra hc
    rw [if_neg hc] at h
    exact h rfl
  have hb2 : kvFinal ctx enc oobB oobD cosF sinF atanF sqrtF i t e 2 ≠ 0 →
      e < nPlayersOf ctx enc := by
    intro h
    rw [kvFinal_c2] at h
    by_contra hc
    rw [if_neg hc] at h
    exact h rfl
  have hf : kvFinal ctx enc oobB oobD cosF sinF atanF sqrtF i t e 1 = 0
      ∨ kvFinal ctx enc oobB oobD cosF sinF atanF sqrtF i t e 2 = 0 := by
    by_cases hen : e < nPlayersOf ctx enc
    · rcases hteam e hen with ht | ht <;>
        rcases eq_or_ne (teamOf ctx enc i) 1 with hti | hti
      · exact Or.inl (by rw [kvFinal_c1, if_pos hen, if_pos hti, ht])
      · exact Or.inr (by rw [kvFinal_c2, if_pos hen, if_neg hti, ht])
      · exact Or.inr (by rw [kvFinal_c2, if_pos hen, if_pos hti, ht, sub_self])
      · exact Or.inl (by rw [kvFinal_c1, if_pos hen, if_neg hti, ht, sub_self])
    · exact Or.inl (by rw [kvFinal_c1, if_neg hen])
  intro c1 c2 hlt hle h1ne h2ne
  interval_cases c2 <;> interval_cases c1
  · exact ⟨rfl, Or.inl rfl, (ha h1ne).2.symm⟩
  · exact ⟨rfl, Or.inr rfl, (ha h1ne).2.symm⟩
  · rcases hf with h | h
    · exact absurd h h1ne
    · exact absurd h h2ne
  · have h1 := (ha h1ne).1
    exact absurd (hd h2ne) (by omega)
  · have h1 := hb1 h1ne
    exact absurd (hd h2ne) (by omega)
  · have h1 := hb2 h1ne
    exact absurd (hd h2ne) (by omega)
  · have h1 := (ha h1ne).1
    have h2 := he4 h2ne
    exact absurd h2 (by omega)
  · have h1 := hb1 h1ne
    have h2 := he4 h2ne
    exact absurd h2 (by omega)
  · have h1 := hb2 h1ne
    have h2 := he4 h2ne
    exact absurd h2 (by omega)
  · have h1 := hd h1ne
    have h2 := he4 h2ne
    exact absurd h2 (by omega)

set_option maxRecDepth 8000 in
/-- Witness for `kind_flags_near_exclusive`: in the two-player batch `enc2`
(teams 0 and 0, capacity 6), channels 0 and 1 of observer 0's row 0 are both
nonzero, and the conclusion locates the row as the observer's own. -/
theorem kind_flags_near_exclusive_witness :
    (0 : ℕ) = 0 ∧ ((1 : ℕ) = 1 ∨ (1 : ℕ) = 2) ∧ (0 : ℕ) = 0 := by
  have hnp : nPlayersOf ctx0 enc2 = 2 := by decide
  have hlim : ctx0.limPlayers = 6 := by decide
  have ht0 : teamOf ctx0 enc2 0 = 0 := by decide
  have ht1 : teamOf ctx0 enc2 1 = 0 := by decide
  refine kind_flags_near_exclusive ctx0 enc2 (fun _ _ => 0) (fun _ _ => 0)
    (fun _ => 0) (fun _ => 0) (fun _ _ => 0) (fun _ => 0) 0 0 0
    (by omega) ?_ 0 1 (by omega) (by omega) ?_ ?_
  · intro j hj
    have hj2 : j < 2 := by omega
    interval_cases j
    · exact Or.inl ht0
    · exact Or.inl ht1
  · rw [kvFinal_c0, if_pos ⟨by omega, rfl⟩]
    norm_num
  · rw [kvFinal_c1, if_pos (by omega), if_neg (by rw [ht0]; norm_num), ht0,
      sub_zero]
    norm_num

/-! ### The observing player's own row (C5) -/

/-- Spec-side description of the observing player's own decoded state, laid
out on the base channels: self flag set, teammate/opponent flag from the
player's team, then the decoded position, linear velocity, forward and up
basis (through the orientation resolver), angular velocity, boost charge,
demolition timer, and the ground/flip/jump flags, at the player's own block
offsets. -/
def selfBase (ctx : BuildCtx) (enc : List (List ℚ)) (oobD : ℕ → ℕ → ℚ)
    (i t d : ℕ) : ℚ :=
  if d = 0 then 1
  else if d = 1 then 1 - teamOf ctx enc i
  else if d = 2 then teamOf ctx enc i
  else if 5 ≤ d ∧ d ≤ 7 then pRead ctx enc t i (ctx.scPos + (d - 5))
  else if 8 ≤ d ∧ d ≤ 10 then pRead ctx enc t i (ctx.scLinVel + (d - 8))
  else if 11 ≤ d ∧ d ≤ 13 then
    quatRot (pRead ctx enc t i ctx.scQuat) (pRead ctx enc t i (ctx.scQuat + 1))
      (pRead ctx enc t i (ctx.scQuat + 2)) (pRead ctx enc t i (ctx.scQuat + 3))
      (d - 11) 0
  else if 14 ≤ d ∧ d ≤ 16 then
    quatRot (pRead ctx enc t i ctx.scQuat) (pRead ctx enc t i (ctx.scQuat + 1))
      (pRead ctx enc t i (ctx.scQuat + 2)) (pRead ctx enc t i (ctx.scQuat + 3))
      (d - 14) 2
  else if 17 ≤ d ∧ d ≤ 19 then pRead ctx enc t i (ctx.scAngVel + (d - 17))
  else if d = 20 then pRead ctx enc t i ctx.scBoost
  else if d = 21 then demoTimerOut ctx enc oobD t i
  else if d = 22 then pRead ctx enc t i ctx.scGround
  else if d = 23 then pRead ctx enc t i ctx.scFlip
  else if d = 24 then pRead ctx enc t i ctx.scJump
  else 0

/-- Spec-side value of channel `c` of the observing player's own row: the
decoded state of `selfBase` under the pipeline's team canonicalisation
(inversion mask and teammate/opponent swap for observers on team 1) and
channel normalisation. -/
def selfRowSpec (ctx : BuildCtx) (enc : List (List ℚ)) (oobD : ℕ → ℕ → ℚ)
    (i t c : ℕ) : ℚ :=
  (if teamOf ctx enc i = 1 then
    (if c = 1 then selfBase ctx enc oobD i t 2
     else if c = 2 then selfBase ctx enc oobD i t 1
     else selfBase ctx enc oobD i t c) * invVec c
   else selfBase ctx enc oobD i t c) / normVec c

/-- Helper: on the observing player's own row, every base channel written
before canonicalisation equals the spec-side decoded state. -/
theorem kvPre_self (ctx : BuildCtx) (enc : List (List ℚ))
    (oobB oobD : ℕ → ℕ → ℚ) (i t d : ℕ) (hd : d ≤ 24)
    (hi : i < nPlayersOf ctx enc) (hn : nPlayersOf ctx enc ≤ ctx.limPlayers) :
    kvPre ctx enc oobB oobD i t i d = selfBase ctx enc oobD i t d := by
  rcases Nat.lt_or_ge d 5 with hd5 | hd5
  · interval_cases d
    · rw [kvPre_c0, if_pos ⟨hi, rfl⟩]
      rfl
    · rw [kvPre_c1, if_pos hi]
      rfl
    · rw [kvPre_c2, if_pos hi]
      rfl
    · rw [kvPre_c3, if_neg (by omega)]
      rfl
    · rw [kvPre_c4, if_neg (by omega)]
      rfl
  · have hbranch : kvPre ctx enc oobB oobD i t i d
        = playerChan ctx enc oobD t i d := by
      unfold kvPre
      rw [if_neg (by omega), if_pos ⟨hi, hd5, hd⟩]
    rw [hbranch]
    interval_cases d <;> rfl

/-- C5: confirmed.  For every observing player `i` (with the configured
capacity at least the actual player count): (1) among all entity rows of
`i`'s final Key-Value tensor, exactly row `i` — the player's own row — has
the self-indicator channel nonzero; (2) every absolute base channel of that
row, taken before the relative-frame transform (i.e. after canonicalisation
and normalisation), equals the player's own decoded state as described by
`selfRowSpec`. -/
theorem self_row_unique_and_correct (ctx : BuildCtx) (enc : List (List ℚ))
    (oobB oobD : ℕ → ℕ → ℚ) (cosF sinF : ℚ → ℚ) (atanF : ℚ → ℚ → ℚ)
    (sqrtF : ℚ → ℚ) (i t : ℕ) (hi : i < nPlayersOf ctx enc)
    (hn : nPlayersOf ctx enc ≤ ctx.limPlayers) :
    (∀ e, e < nEntitiesOf ctx →
      (kvFinal ctx enc oobB oobD cosF sinF atanF sqrtF i t e 0 ≠ 0 ↔ e = i))
    ∧ (∀ c, c ≤ 24 →
        kvNorm ctx enc oobB oobD i t i c = selfRowSpec ctx enc oobD i t c) := by
  constructor
  · intro e he
    rw [kvFinal_c0]
    constructor
    · intro hne
      by_cases hcond : e < nPlayersOf ctx enc ∧ i = e
      · exact hcond.2.symm
      · rw [if_neg hcond] at hne
        exact absurd rfl hne
    · intro hei
      subst hei
      rw [if_pos ⟨hi, rfl⟩]
      norm_num
  · intro c hc
    unfold kvNorm selfRowSpec
    congr 1
    unfold kvInv
    rcases eq_or_ne (teamOf ctx enc i) 1 with ht | ht
    · rw [if_pos ht, if_pos ht]
      by_cases hc1 : c = 1
      · subst hc1
        rw [if_pos rfl, if_pos rfl, invVec_kind 1 (by omega),
          invVec_kind 2 (by omega), mul_one, mul_one,
          kvPre_self ctx enc oobB oobD i t 2 (by omega) hi hn]
      · by_cases hc2 : c = 2
        · subst hc2
          rw [if_neg hc1, if_neg hc1, if_pos rfl, if_pos rfl,
            invVec_kind 1 (by omega), invVec_kind 2 (by omega), mul_one,
            mul_one, kvPre_self ctx enc oobB oobD i t 1 (by omega) hi hn]
        · rw [if_neg hc1, if_neg hc1, if_neg hc2, if_neg hc2,
            kvPre_self ctx enc oobB oobD i t c hc hi hn]
    · rw [if_neg ht, if_neg ht, kvPre_self ctx enc oobB oobD i t c hc hi hn]

set_option maxRecDepth 8000 in
/-- Witness for `self_row_unique_and_correct`: the one-player batch `enc0`;
row 0 of observer 0 carries the self flag, and its position x channel
matches the spec-side decoded state. -/
theorem self_row_unique_and_correct_witness :
    kvFinal ctx0 enc0 (fun _ _ => 0) (fun _ _ => 0) (fun _ => 0) (fun _ => 0)
        (fun _ _ => 0) (fun _ => 0) 0 0 0 0 ≠ 0
    ∧ kvNorm ctx0 enc0 (fun _ _ => 0) (fun _ _ => 0) 0 0 0 5
        = selfRowSpec ctx0 enc0 (fun _ _ => 0) 0 0 5 := by
  have h := self_row_unique_and_correct ctx0 enc0 (fun _ _ => 0) (fun _ _ => 0)
    (fun _ => 0) (fun _ => 0) (fun _ _ => 0) (fun _ => 0) 0 0
    (by decide) (by decide)
  exact ⟨(h.1 0 (by decide)).mpr rfl, h.2 5 (by omega)⟩

/-! ### Row-width handling (C10)

`batched_build_obs` performs no explicit width validation: it derives the
player count by floor division and runs; a width mismatch only surfaces if
some later numpy assignment fails to broadcast.  `widthAccepted` collects
exactly those shape conditions, one conjunct per numpy operation that can
fail on the row width:
* `encoded_states[0, ...]` (the team read) needs at least one row;
* the floor division needs a nonzero `PLAYER_INFO_LENGTH` and a
  non-negative `n_players` (else the allocations raise on a negative
  dimension);
* the ball assignment broadcasts a `(T, ballCols)` slice into 9 channels
  (`ballCols` ∈ {9, 1});
* the pad-timer assignment broadcasts a `(T, boostCols)` matrix into the
  34 pad rows (`boostCols` ∈ {34, 1});
* the teammate-indicator assignment broadcasts the strided team vector into
  `n_players` rows, and the boolean mask `teams == 1` indexes the observer
  axis, so the team-vector length must equal `n_players`;
* `demo_timers[:, i]` needs at least `n_players` demolition columns;
* `kv[:, :, i, ...]` needs every player row index below `n_entities`. -/

/-- The shape conditions under which `batched_build_obs` completes rather
than raising (see the section comment for the one-to-one correspondence
with the source's numpy operations). -/
def widthAccepted (ctx : BuildCtx) (enc : List (List ℚ)) : Prop :=
  enc.length ≠ 0 ∧ ctx.playerLength ≠ 0 ∧ playersStart ctx ≤ encWidth enc
  ∧ (min (encWidth enc) 46 - min (encWidth enc) 37 = 9
     ∨ min (encWidth enc) 46 - min (encWidth enc) 37 = 1)
  ∧ (min (encWidth enc) 37 - min (encWidth enc) 3 = 34
     ∨ min (encWidth enc) 37 - min (encWidth enc) 3 = 1)
  ∧ sliceCount (encWidth enc) (playersStart ctx + 1) ctx.playerLength
      = nPlayersOf ctx enc
  ∧ nPlayersOf ctx enc
      ≤ sliceCount (encWidth enc) (playersStart ctx + 33) ctx.playerLength
  ∧ nPlayersOf ctx enc ≤ nEntitiesOf ctx

instance (ctx : BuildCtx) (enc : List (List ℚ)) :
    Decidable (widthAccepted ctx enc) := by
  unfold widthAccepted
  infer_instance

/-- `batched_build_obs` as a fallible call: `none` when some numpy
operation raises on the given row width, otherwise the player count and the
Query/Key-Value/Mask value functions. -/
def batchedBuildObsChecked (ctx : BuildCtx) (enc : List (List ℚ))
    (oobB oobD : ℕ → ℕ → ℚ) (cosF sinF : ℚ → ℚ) (atanF : ℚ → ℚ → ℚ)
    (sqrtF : ℚ → ℚ) :
    Option (ℕ × (ℕ → ℕ → ℕ → ℚ) × (ℕ → ℕ → ℕ → ℕ → ℚ) × (ℕ → ℕ → ℕ → ℚ)) :=
  if widthAccepted ctx enc then
    some (nPlayersOf ctx enc, qRowF ctx enc oobB oobD,
      kvFinal ctx enc oobB oobD cosF sinF atanF sqrtF, maskVal ctx enc)
  else none

/-- `expected width` for the configured player capacity: header, pads, ball
block, then one full block per configured player slot. -/
def expectedWidth (ctx : BuildCtx) : ℕ :=
  playersStart ctx + ctx.limPlayers * ctx.playerLength

set_option maxRecDepth 8000 in
/-- C10 counterexample: the two-player batch `enc2` has row width 131,
which does not match the expected layout for the configured capacity six
(width 283), yet the builder completes and produces output tensors instead
of failing. -/
theorem width_mismatch_accepted :
    encWidth enc2 ≠ expectedWidth ctx0
    ∧ (batchedBuildObsChecked ctx0 enc2 (fun _ _ => 0) (fun _ _ => 0)
        (fun _ => 0) (fun _ => 0) (fun _ _ => 0) (fun _ => 0)).isSome
      = true := by
  constructor
  · decide
  · decide

/-- C10: corrected.  The builder does not fail on every mismatched width.
With at least one complete player block (and a player block of at least 35
fields, a ball block of at least 9, actual players within capacity), the
call completes if and only if the residual row width beyond whole player
blocks is at most one column: a surplus of one trailing column is silently
ignored, widths matching any player count at most the capacity are accepted
(even when they differ from the configured capacity's layout), and only a
residual of two or more makes the team-indicator assignment raise. -/
theorem width_guard (ctx : BuildCtx) (enc : List (List ℚ))
    (oobB oobD : ℕ → ℕ → ℚ) (cosF sinF : ℚ → ℚ) (atanF : ℚ → ℚ → ℚ)
    (sqrtF : ℚ → ℚ) (hT : enc ≠ []) (hL : 35 ≤ ctx.playerLength)
    (hB : 9 ≤ ctx.ballStateLength)
    (hW : playersStart ctx + ctx.playerLength ≤ encWidth enc)
    (hcap : nPlayersOf ctx enc ≤ ctx.limPlayers) :
    (batchedBuildObsChecked ctx enc oobB oobD cosF sinF atanF sqrtF).isSome
        = true
      ↔ (encWidth enc - playersStart ctx) % ctx.playerLength ≤ 1 := by
  have hsome : (batchedBuildObsChecked ctx enc oobB oobD cosF sinF atanF
      sqrtF).isSome = true ↔ widthAccepted ctx enc := by
    unfold batchedBuildObsChecked
    split_ifs with h
    · simp [h]
    · simp [h]
  rw [hsome]
  have hL0 : 0 < ctx.playerLength := by omega
  have hkeq : nPlayersOf ctx enc * ctx.playerLength
      + (encWidth enc - playersStart ctx) % ctx.playerLength
      = encWidth enc - playersStart ctx := by
    unfold nPlayersOf
    rw [Nat.mul_comm]
    exact Nat.div_add_mod _ _
  have hrlt : (encWidth enc - playersStart ctx) % ctx.playerLength
      < ctx.playerLength := Nat.mod_lt _ hL0
  have hkL : ctx.playerLength ≤ encWidth enc - playersStart ctx := by omega
  have hn1 : 1 ≤ nPlayersOf ctx enc := by
    rcases Nat.eq_zero_or_pos (nPlayersOf ctx enc) with h0 | h0
    · rw [h0] at hkeq
      omega
    · exact h0
  have hps46 : 46 ≤ playersStart ctx := by
    unfold playersStart
    omega
  have hteams : sliceCount (encWidth enc) (playersStart ctx + 1)
      ctx.playerLength
      = nPlayersOf ctx enc
        + ((encWidth enc - playersStart ctx) % ctx.playerLength
            + ctx.playerLength - 2) / ctx.playerLength := by
    unfold sliceCount
    rw [if_pos (by omega)]
    have harr : encWidth enc - (playersStart ctx + 1) + ctx.playerLength - 1
        = ((encWidth enc - playersStart ctx) % ctx.playerLength
            + ctx.playerLength - 2)
          + nPlayersOf ctx enc * ctx.playerLength := by
      omega
    rw [harr, Nat.add_mul_div_right _ _ hL0]
    exact Nat.add_comm _ _
  have hdemo : nPlayersOf ctx enc
      ≤ sliceCount (encWidth enc) (playersStart ctx + 33) ctx.playerLength := by
    unfold sliceCount
    rw [if_pos (by omega)]
    have harr : encWidth enc - (playersStart ctx + 33) + ctx.playerLength - 1
        = ((encWidth enc - playersStart ctx) % ctx.playerLength
            + ctx.playerLength - 34)
          + nPlayersOf ctx enc * ctx.playerLength := by
      omega
    rw [harr, Nat.add_mul_div_right _ _ hL0]
    exact Nat.le_add_left _ _
  constructor
  · rintro ⟨-, -, -, -, -, ht, -, -⟩
    rw [hteams] at ht
    have hq : ((encWidth enc - playersStart ctx) % ctx.playerLength
        + ctx.playerLength - 2) / ctx.playerLength = 0 := by omega
    rw [Nat.div_eq_zero_iff hL0] at hq
    omega
  · intro hr
    have hW46 : 46 ≤ encWidth enc := by omega
    have hW37 : 37 ≤ encWidth enc := by omega
    have hW3 : 3 ≤ encWidth enc := by omega
    refine ⟨fun h => hT (List.length_eq_zero.mp h), by omega, by omega,
      Or.inl (by rw [min_eq_right hW46, min_eq_right hW37]),
      Or.inl (by rw [min_eq_right hW37, min_eq_right hW3]), ?_, hdemo, ?_⟩
    · rw [hteams, Nat.div_eq_of_lt (by omega)]
      omega
    · unfold nEntitiesOf
      omega

set_option maxRecDepth 8000 in
/-- Witness for `width_guard`: the two-player batch `enc2` has residual 0,
so the call completes. -/
theorem width_guard_witness :
    (batchedBuildObsChecked ctx0 enc2 (fun _ _ => 0) (fun _ _ => 0)
        (fun _ => 0) (fun _ => 0) (fun _ _ => 0) (fun _ => 0)).isSome = true
      ↔ (encWidth enc2 - playersStart ctx0) % ctx0.playerLength ≤ 1 :=
  width_guard ctx0 enc2 (fun _ _ => 0) (fun _ _ => 0) (fun _ => 0)
    (fun _ => 0) (fun _ _ => 0) (fun _ => 0) (by decide) (by decide)
    (by decide) (by decide) (by decide)

/-! ## The legacy reference encoder `NectoObsOLD` (C2)

The legacy encoder consumes decoded game states (rlgym objects) rather than
encoded rows; its per-state tensor has 24 channels and the entity rows are
ordered ball (row 0), players (rows 1 .. capacity), pads (34 rows after
them).  Its timers differ from the batched simulator: a pad timer re-arms on
`pad == 1 & timer == 0` and is multiplied by the pad state, demolition
timers re-arm only on the transition into the demolished state, and both are
stored pre-normalised.  `build_obs` then sets the main flag, swaps the
teammate/opponent channels and multiplies by the 24-wide inversion mask for
orange observers, builds the query row from the main row plus the previous
action, and finally subtracts the query's position/linear-velocity block
from channels 5–10 of every entity row. -/

/-- Decoded attributes of one player as the legacy encoder reads them
(`PlayerData` with `car_data.forward()`/`up()` resolved). -/
structure OldPlayer where
  team : ℚ
  pos : ℕ → ℚ
  lin : ℕ → ℚ
  fwd : ℕ → ℚ
  upv : ℕ → ℚ
  ang : ℕ → ℚ
  boost : ℚ
  demoed : ℚ
  ground : ℚ
  hasFlip : ℚ

/-- One decoded game state as the legacy encoder reads it. -/
structure OldState where
  ballPos : ℕ → ℚ
  ballLin : ℕ → ℚ
  ballAng : ℕ → ℚ
  pads : ℕ → ℚ
  players : List OldPlayer

/-- `NectoObsOLD._norm`: `[1]*5 ++ [2300]*6 ++ [1]*6 ++ [5.5]*3 ++ [1]*4`
(24 channels; no timer normalisation, the legacy timers are stored
pre-normalised). -/
def normVecOld (c : ℕ) : ℚ :=
  if 5 ≤ c ∧ c ≤ 10 then 2300
  else if 17 ≤ c ∧ c ≤ 19 then 5.5
  else 1

/-- `NectoObsOLD._invert`: `[1]*5 ++ [-1,-1,1]*5 ++ [1]*4` (24 channels;
same ±1 pattern as the batched mask on the channels both have). -/
def invVecOld (c : ℕ) : ℚ :=
  if 5 ≤ c ∧ c ≤ 19 then (if (c - 5) % 3 = 2 then 1 else -1) else 1

/-- The demolition flag of player `j` (`demos` vector), 0 past the actual
player list. -/
def demosOf (st : OldState) (j : ℕ) : ℚ :=
  ((st.players.get? j).map OldPlayer.demoed).getD 0

/-- The legacy pad timer written to the tensor: re-armed when the pad is
available and the carried timer is zero, then multiplied by the pad state
(`new_boost_grabs` / `*= boost_pads`); values are pre-normalised (0.4/1.0
instead of 4/10 seconds). -/
def oldBoostTimerNew (locsZ : ℕ → ℚ) (carry : ℕ → ℚ) (pads : ℕ → ℚ)
    (b : ℕ) : ℚ :=
  (if pads b = 1 ∧ carry b = 0 then 0.4 + 0.6 * (if 72 < locsZ b then 1 else 0)
   else carry b) * pads b

/-- The legacy demolition timer written to the tensor: re-armed only on the
transition into the demolished state, then multiplied by the flag
(pre-normalised 0.3 instead of 3 seconds). -/
def oldDemoTimerNew (carry : ℕ → ℚ) (demos : ℕ → ℚ) (j : ℕ) : ℚ :=
  (if demos j = 1 ∧ carry j = 0 then 0.3 else carry j) * demos j

/-- The legacy tensor before normalisation (`NectoObsOLD._maybe_update_obs`):
ball at row 0, players at rows 1 .. capacity, pads after them. -/
def oldQkv (nCfg : ℕ) (locs : ℕ → ℕ → ℚ) (boostCarry demoCarry : ℕ → ℚ)
    (st : OldState) (r c : ℕ) : ℚ :=
  if r = 0 then
    (if c = 3 then 1
     else if 5 ≤ c ∧ c ≤ 7 then st.ballPos (c - 5)
     else if 8 ≤ c ∧ c ≤ 10 then st.ballLin (c - 8)
     else if 17 ≤ c ∧ c ≤ 19 then st.ballAng (c - 17)
     else 0)
  else if r ≤ st.players.length then
    (match st.players.get? (r - 1) with
     | none => 0
     | some p =>
       if c = 1 then (if p.team = 0 then 1 else 0)
       else if c = 2 then (if p.team = 0 then 0 else 1)
       else if 5 ≤ c ∧ c ≤ 7 then p.pos (c - 5)
       else if 8 ≤ c ∧ c ≤ 10 then p.lin (c - 8)
       else if 11 ≤ c ∧ c ≤ 13 then p.fwd (c - 11)
       else if 14 ≤ c ∧ c ≤ 16 then p.upv (c - 14)
       else if 17 ≤ c ∧ c ≤ 19 then p.ang (c - 17)
       else if c = 20 then p.boost
       else if c = 21 then oldDemoTimerNew demoCarry (demosOf st) (r - 1)
       else if c = 22 then p.ground
       else if c = 23 then p.hasFlip
       else 0)
  else if r ≤ nCfg then
    (if c = 21 then oldDemoTimerNew demoCarry (demosOf st) (r - 1) else 0)
  else
    (if c = 4 then 1
     else if 5 ≤ c ∧ c ≤ 7 then locs (r - 1 - nCfg) (c - 5)
     else if c = 20 then
       0.12 + 0.88 * (if 72 < locs (r - 1 - nCfg) 2 then 1 else 0)
     else if c = 21 then
       oldBoostTimerNew (fun b => locs b 2) boostCarry st.pads (r - 1 - nCfg)
     else 0)

/-- The legacy tensor after `qkv /= self._norm`. -/
def oldQkvNorm (nCfg : ℕ) (locs : ℕ → ℕ → ℚ) (boostCarry demoCarry : ℕ → ℚ)
    (st : OldState) (r c : ℕ) : ℚ :=
  oldQkv nCfg locs boostCarry demoCarry st r c / normVecOld c

/-- Team of the observing player (`player.team_num`). -/
def oldMainTeam (st : OldState) (mainIdx : ℕ) : ℚ :=
  ((st.players.get? mainIdx).map OldPlayer.team).getD 0

/-- The legacy tensor with the main flag set on the observing player's row
(`qkv[0, main_n, 0] = 1` on the normalised copy). -/
def oldKv1 (nCfg : ℕ) (locs : ℕ → ℕ → ℚ) (boostCarry demoCarry : ℕ → ℚ)
    (st : OldState) (mainIdx r c : ℕ) : ℚ :=
  if r = mainIdx + 1 ∧ c = 0 then 1
  else oldQkvNorm nCfg locs boostCarry demoCarry st r c

/-- The legacy tensor after the orange-observer canonicalisation: the
teammate/opponent swap first, then multiplication by the inversion mask. -/
def oldKv2 (nCfg : ℕ) (locs : ℕ → ℕ → ℚ) (boostCarry demoCarry : ℕ → ℚ)
    (st : OldState) (mainIdx r c : ℕ) : ℚ :=
  if oldMainTeam st mainIdx = 1 then
    (if c = 1 then oldKv1 nCfg locs boostCarry demoCarry st mainIdx r 2
     else if c = 2 then oldKv1 nCfg locs boostCarry demoCarry st mainIdx r 1
     else oldKv1 nCfg locs boostCarry demoCarry st mainIdx r c) * invVecOld c
  else oldKv1 nCfg locs boostCarry demoCarry st mainIdx r c

/-- The legacy query row: the observing player's tensor row (24 channels)
followed by the previous action (8 channels). -/
def oldQ (nCfg : ℕ) (locs : ℕ → ℕ → ℚ) (boostCarry demoCarry : ℕ → ℚ)
    (st : OldState) (mainIdx : ℕ) (prevAct : ℕ → ℚ) (c : ℕ) : ℚ :=
  if c ≤ 23 then oldKv2 nCfg locs boostCarry demoCarry st mainIdx (mainIdx + 1) c
  else prevAct (c - 24)

/-- The legacy Key-Value tensor as returned by `build_obs`: the query's
position/linear-velocity block is subtracted from channels 5–10 of every
row (`kv[0, :, 5:11] -= q[0, 0, 5:11]`). -/
def oldKvOut (nCfg : ℕ) (locs : ℕ → ℕ → ℚ) (boostCarry demoCarry : ℕ → ℚ)
    (st : OldState) (mainIdx : ℕ) (prevAct : ℕ → ℚ) (r c : ℕ) : ℚ :=
  if 5 ≤ c ∧ c ≤ 10 then
    oldKv2 nCfg locs boostCarry demoCarry st mainIdx r c
      - oldQ nCfg locs boostCarry demoCarry st mainIdx prevAct c
  else oldKv2 nCfg locs boostCarry demoCarry st mainIdx r c

/-- The all-zero blue player observed in the shared C2 scenario. -/
def oldPlayer0 : OldPlayer :=
  ⟨0, fun _ => 0, fun _ => 0, fun _ => 0, fun _ => 0, fun _ => 0, 0, 0, 0, 0⟩

/-- The decoded form of the shared C2 scenario: ball at rest at the origin,
all 34 pads available, one blue player with all-zero attributes — the same
snapshot that `enc0` encodes for the batched builder. -/
def oldState0 : OldState :=
  ⟨fun _ => 0, fun _ => 0, fun _ => 0, fun _ => 1, [oldPlayer0]⟩

/-- C2: refuted (code bug).  On the shared snapshot (`oldState0` decoded /
`enc0` encoded, observer 0, previous action zero, zero carried timers), the
legacy encoder places the ball at entity row 0 (ball-flag channel 3 equals
1) while the batched builder places player rows first (its row 0 has
ball-flag 0; the ball sits at row `lim_players`): the two Key-Value tensors
differ at entity row 0, channel 3 — a channel both encoders share — so the
batched output does not equal the legacy output modulo appended channels.
The repository's own `__main__` equality check (`FIXME ensure reconstructed
obs is *exactly* the same`) would report this as `Error`. -/
theorem old_new_entity_order_mismatch :
    oldKvOut 6 (fun _ _ => 0) (fun _ => 0) (fun _ => 0) oldState0 0
        (fun _ => 0) 0 3 = 1
    ∧ kvFinal ctx0 enc0 (fun _ _ => 0) (fun _ _ => 0) (fun _ => 0)
        (fun _ => 0) (fun _ _ => 0) (fun _ => 0) 0 0 0 3 = 0 := by
  constructor
  · norm_num [oldKvOut, oldKv2, oldKv1, oldQkvNorm, oldQkv, oldMainTeam,
      oldState0, oldPlayer0, normVecOld]
  · rw [kvFinal_c3, if_neg (by decide)]

end Necto
